import Mathlib

/-!
Shallow embedding of the cost aggregation and quality-scoring engine of the
Fund-Finder-AI repository, together with proofs of the specified properties.

Sources embedded:
- `src/cost-finder/generate-cost-factor/quality.ts` (quality scoring)
- `src/cost-finder/generate-cost-factor/domain-search.ts` (cost values, search filtering)
- the engine module (`gatherSearchResults`, `searchWithFallback`,
  `attachQualityScores`, `getCostEstimate`)
- `src/cost-finder/cost-estimate-lite.ts` (the LLM-free lite variant)

Numbers are modelled with `ℚ` (the code works with JS doubles; all values in
the verified properties are exactly representable). Clock reads (`new Date()`)
and the JS date parser (`new Date(string)`) are modelled by an explicit
`DateEnv` parameter threaded through the scoring functions; the external
search and generation providers are modelled as oracle functions carried in
environment records, matching the repository's swappable `...Impl` hooks.
-/

namespace FundFinder

/-! ### quality.ts: enumerations and data model -/

/-- `SourceTypeKey` from quality.ts. -/
inductive SourceTypeKey
  | commodity_index
  | major_vendor
  | trade_stats
  | supplier_quote
  | industry_report
  | web_secondary
  | anecdotal
  deriving DecidableEq, Repr

/-- `DerivationType` from quality.ts. -/
inductive DerivationType
  | direct_local
  | direct_regional
  | inferred_regional
  | inferred_material_analog
  | heuristic
  deriving DecidableEq, Repr

/-- `ProximityKey` from quality.ts. -/
inductive ProximityKey
  | same_cluster
  | same_country_same_market
  | same_country_different_market
  | neighboring_country
  | same_region
  | different_region
  deriving DecidableEq, Repr

/-- `QualityBand` from quality.ts. -/
inductive QualityBand
  | high
  | medium
  | low_medium
  | low
  deriving DecidableEq, Repr

/-- `SourceEntry` from quality.ts. `observedAt` is the ISO-ish date string
variant (the only one produced by `attachQualityScores`); a missing field is
`none`. The `type` field is optional the way `scoreSourceType` consumes it. -/
structure SourceEntry where
  type : Option SourceTypeKey
  ageMonths : Option ℚ
  observedAt : Option String
  rawPriceUsdPerKg : Option ℚ
  deriving DecidableEq, Repr

/-- `QualityScores` from quality.ts. -/
structure QualityScores where
  recency : ℚ
  source : ℚ
  estimation : ℚ
  consistency : ℚ
  proximity : ℚ
  composite : ℚ
  band : QualityBand
  deriving DecidableEq, Repr

/-- `SOURCE_TYPE_SCORE` lookup table from quality.ts. -/
def sourceTypeScore : SourceTypeKey → ℚ
  | .commodity_index => 80
  | .major_vendor => 75
  | .trade_stats => 70
  | .supplier_quote => 65
  | .industry_report => 55
  | .web_secondary => 30
  | .anecdotal => 15

/-- `DERIVATION_SCORE` lookup table from quality.ts. -/
def derivationScore : DerivationType → ℚ
  | .direct_local => 100
  | .direct_regional => 85
  | .inferred_regional => 70
  | .inferred_material_analog => 60
  | .heuristic => 40

/-- `PROXIMITY_SCORE` lookup table from quality.ts. -/
def proximityScoreTable : ProximityKey → ℚ
  | .same_cluster => 100
  | .same_country_same_market => 80
  | .same_country_different_market => 60
  | .neighboring_country => 45
  | .same_region => 30
  | .different_region => 15

/-! ### quality.ts: date handling

The code calls `new Date()` (the clock) and `new Date(string)` (the JS date
parser). Both are modelled by `DateEnv`: `nowMs` is the current timestamp in
milliseconds and `jsParseDate` maps a date string to its parsed timestamp
(`none` models an invalid date). The year / year-month normalization that
`parseObservedAt` performs on the string before parsing is embedded
explicitly below. -/

/-- Environment modelling the JS clock and the JS date parser. -/
structure DateEnv where
  jsParseDate : String → Option Int
  nowMs : Int

/-- Matches the regex `^\d{4}$` in `parseObservedAt`. -/
def isYearOnly (s : String) : Bool :=
  s.length == 4 && s.all (·.isDigit)

/-- Matches the regex `^\d{4}-\d{1,2}$` in `parseObservedAt`. -/
def isYearMonth (s : String) : Bool :=
  match s.data with
  | [a, b, c, d, e, f] =>
    (a.isDigit && b.isDigit && c.isDigit && d.isDigit) && e == '-' && f.isDigit
  | [a, b, c, d, e, f, g] =>
    (a.isDigit && b.isDigit && c.isDigit && d.isDigit) && e == '-' &&
      (f.isDigit && g.isDigit)
  | _ => false

/-- `parseObservedAt` from quality.ts, for the string variant of the input:
trim, normalize a year-only string to Jan 1 and a year-month string to the
1st, then hand the string to the JS date parser. -/
def parseObservedAt (env : DateEnv) (s : String) : Option Int :=
  let t := s.trim
  let t' := if isYearOnly t then t ++ "-01-01"
            else if isYearMonth t then t ++ "-01"
            else t
  env.jsParseDate t'

/-- Milliseconds per day, as in `daysBetween`. -/
def msPerDay : Int := 24 * 60 * 60 * 1000

/-- `daysBetween` from quality.ts: floor of the day difference, clamped at 0.
`Math.floor` of a real division by the positive constant `msPerDay` is
integer flooring division. -/
def daysBetween (fromMs toMs : Int) : Int :=
  let diff := Int.fdiv (toMs - fromMs) msPerDay
  if diff < 0 then 0 else diff

/-- The threshold chain at the end of `scoreRecency` (the body of
`if (ageMonths !== undefined ...)`), as a function of the effective age. -/
def recencyFromMonths (m : ℚ) : ℚ :=
  if m ≤ 1 then 100
  else if m ≤ 3 then 80
  else if m ≤ 6 then 50
  else if m ≤ 12 then 35
  else 20

/-- `scoreRecency` from quality.ts. A `NaN` explicit age is sanitized to
`undefined` by the code; `ℚ` has no `NaN`, so `ageMonths` arrives already
sanitized. When `observedAt` parses, the derived age (in months of 30 days)
replaces the explicit age exactly when the explicit age is absent or the
derived age is larger. -/
def scoreRecency (env : DateEnv) (ageMonths : Option ℚ) (observedAt : Option String) : ℚ :=
  let derivedMonths : Option ℚ :=
    match observedAt with
    | none => none
    | some s =>
      match parseObservedAt env s with
      | none => none
      | some observed => some ((daysBetween observed env.nowMs : ℚ) / 30)
  let age : Option ℚ :=
    match derivedMonths, ageMonths with
    | some d, none => some d
    | some d, some a => if d > a then some d else some a
    | none, a => a
  match age with
  | some m => recencyFromMonths m
  | none => 50

/-- `scoreSourceType` from quality.ts. The `?? 40` fallback for a string that
is not a known key is unrepresentable here because `type` is already the
enumeration. -/
def scoreSourceType (type : Option SourceTypeKey) : ℚ :=
  match type with
  | none => 50
  | some k => sourceTypeScore k

/-- `scoreDerivation` from quality.ts. -/
def scoreDerivation (type : Option DerivationType) : ℚ :=
  match type with
  | none => 50
  | some k => derivationScore k

/-- `scoreProximity` from quality.ts. -/
def scoreProximity (key : Option ProximityKey) : ℚ :=
  match key with
  | none => 50
  | some k => proximityScoreTable k

/-- Exact rational characterization of `Math.sqrt(variance) / mean <= c` for
`mean ≠ 0` and `variance ≥ 0`: when `mean` is negative the quotient is
nonpositive and the bound (against a positive `c`) holds; when `mean` is
positive, squaring both sides gives `variance ≤ c² · mean²`. Used to embed
the `relativeSpread` comparisons of `scoreConsistency` without real square
roots. -/
def relSpreadLe (variance mean c : ℚ) : Bool :=
  decide (mean < 0) || decide (variance ≤ c ^ 2 * mean ^ 2)

/-- `scoreConsistency` from quality.ts: population stdev over mean of the
present prices, bucketed. -/
def scoreConsistency (prices : List (Option ℚ)) : ℚ :=
  let clean := prices.filterMap id
  if clean.length ≤ 1 then 70
  else
    let mean := clean.sum / (clean.length : ℚ)
    if mean = 0 then 30
    else
      let variance := (clean.map (fun val => (val - mean) ^ 2)).sum / (clean.length : ℚ)
      if relSpreadLe variance mean 0.05 then 100
      else if relSpreadLe variance mean 0.15 then 80
      else if relSpreadLe variance mean 0.3 then 60
      else 30

/-- `bandFromScore` from quality.ts. -/
def bandFromScore (score : ℚ) : QualityBand :=
  if 80 ≤ score then .high
  else if 60 ≤ score then .medium
  else if 40 ≤ score then .low_medium
  else .low

/-- Parameter record of `computeQualityScore`. -/
structure QualityParams where
  sources : List SourceEntry
  derivationType : Option DerivationType
  proximity : Option ProximityKey
  deriving DecidableEq, Repr

/-- `computeQualityScore` from quality.ts. -/
def computeQualityScore (env : DateEnv) (params : QualityParams) : QualityScores :=
  let recencyScores := params.sources.map (fun s => scoreRecency env s.ageMonths s.observedAt)
  let sourceTypeScores := params.sources.map (fun s => scoreSourceType s.type)
  let prices := params.sources.map (fun s => s.rawPriceUsdPerKg)
  let recency :=
    if recencyScores.length > 0 then recencyScores.sum / (recencyScores.length : ℚ) else 50
  let source :=
    if sourceTypeScores.length > 0 then sourceTypeScores.sum / (sourceTypeScores.length : ℚ)
    else 50
  let estimation := scoreDerivation params.derivationType
  let consistency := scoreConsistency prices
  let proximityScore := scoreProximity params.proximity
  let composite :=
    0.3 * recency + 0.25 * source + 0.2 * estimation + 0.15 * consistency +
      0.1 * proximityScore
  { recency := recency
    source := source
    estimation := estimation
    consistency := consistency
    proximity := proximityScore
    composite := composite
    band := bandFromScore composite }

/-- Null date environment: no string parses and the clock reads 0. Used for
claims whose inputs carry no `observedAt` date. -/
def dateEnv0 : DateEnv := ⟨fun _ => none, 0⟩

/-! ### domain-search.ts: cost entries and search results -/

/-- The `source` object of a cost entry (`{url, text}`). -/
structure SourceRef where
  url : String
  text : String
  deriving DecidableEq, Repr

/-- One element of `ExaResult.cost` from domain-search.ts. The TS `CostAmount`
union is an object carrying optional `amount` / `minAmount` / `maxAmount`
fields; the union invariant (exactly one of single or range) is kept as the
runtime shape, optional fields and all, because `getCostNumericValue` is
defined on the raw object. -/
structure CostEntry where
  amount : Option ℚ
  minAmount : Option ℚ
  maxAmount : Option ℚ
  currency : String
  weightUnits : String
  evaluationMethod : String
  assumptions : Option String
  score : ℚ
  scoreJustification : String
  source : SourceRef
  deriving DecidableEq, Repr

/-- `getCostNumericValue` from domain-search.ts:
`cost.amount ?? cost.minAmount ?? cost.maxAmount ?? 0` (`??` skips only
missing values, never `0`). -/
def getCostNumericValue (cost : CostEntry) : ℚ :=
  match cost.amount with
  | some a => a
  | none =>
    match cost.minAmount with
    | some mn => mn
    | none =>
      match cost.maxAmount with
      | some mx => mx
      | none => 0

/-- `ExaResult` from domain-search.ts. -/
structure ExaResult where
  ingredientName : String
  locationName : String
  cost : List CostEntry
  text : String
  deriving DecidableEq, Repr

/-- The `costFactor` object of a parsed structured summary. -/
structure CostFactorSummary where
  ingredientName : String
  locationName : String
  cost : List CostEntry
  deriving DecidableEq, Repr

/-- One raw provider result, after the JSON step: `summary` is the parsed
`costFactor` when the provider returned a summary that parses, otherwise
`none` (a missing summary and a JSON parse failure both yield no result). -/
structure RawSearchItem where
  summary : Option CostFactorSummary
  text : String
  deriving DecidableEq, Repr

/-- Truthiness of `c.score && c.score < 0.6` in the all-low-confidence check
(a score of `0` is falsy in JS, so it defeats the `every`). -/
def scoreTruthyLtMin (c : CostEntry) : Bool :=
  decide (c.score ≠ 0) && decide (c.score < 0.6)

/-- The shared `flatMap` body of `domainPreferredSearch` and `generalSearch`
in domain-search.ts: drop a result whose summary is missing/unparsable, whose
cost list is empty, whose every entry has (truthy) confidence below 0.6, or
whose every entry has non-positive numeric value; keep the rest with the cost
list filtered to entries of confidence at least 0.6. -/
def filterStructuredResults (items : List RawSearchItem) : List ExaResult :=
  items.flatMap fun r =>
    match r.summary with
    | none => []
    | some cf =>
      if cf.cost.isEmpty
          || cf.cost.all scoreTruthyLtMin
          || cf.cost.all (fun c => decide (getCostNumericValue c ≤ 0)) then []
      else
        [{ ingredientName := cf.ingredientName
           locationName := cf.locationName
           cost := cf.cost.filter (fun c => decide (c.score ≠ 0) && decide (0.6 ≤ c.score))
           text := r.text }]

/-! ### Engine module: gathering with global fallback

`domainPreferredSearchImpl` / `generalSearchImpl` are the module's swappable
search hooks; they are modelled as the two oracle functions of `SearchEnv`
(the production wiring plugs in `filterStructuredResults` over the raw
provider output). `gatherSearchResults` additionally records the searches it
issues, in order, so that the escalation policy can be stated. -/

/-- Which of the two search modes a call used. -/
inductive SearchMode
  | preferredMode
  | generalMode
  deriving DecidableEq, Repr

/-- One underlying search invocation: the mode and the query string. -/
structure SearchCall where
  mode : SearchMode
  query : String
  deriving DecidableEq, Repr

/-- Oracle environment for the two search hooks. -/
structure SearchEnv where
  preferredSearch : String → List ExaResult
  generalSearch : String → List ExaResult

/-- `Target` from data.ts (the Prisma `LocationCode` enum is a string). -/
structure Target where
  ingredientMetadataId : String
  ingredientName : String
  lifecycleStage : String
  mainDataPointId : String
  locationCode : String
  locationName : String
  year : Nat
  deriving DecidableEq, Repr

/-- `makeCountryQuery` from the engine module. -/
def makeCountryQuery (target : Target) : String :=
  target.ingredientName ++ " wholesale price " ++ target.locationName ++ " bulk commodity"

/-- `makeGlobalQuery` from the engine module. -/
def makeGlobalQuery (target : Target) : String :=
  target.ingredientName ++ " global wholesale commodity price"

/-- `makeCacheKey` from the engine module. -/
def makeCacheKey (target : Target) : String :=
  target.ingredientName.toLower ++ "::" ++ target.locationCode

/-- Provenance tag of a gathered result (`"preferred"` / `"general"`). -/
inductive PromptSourceType
  | preferred
  | general
  deriving DecidableEq, Repr

/-- `SearchResultForPrompt` from the engine module: an `ExaResult` plus an id
and a provenance tag. -/
structure SearchResultForPrompt extends ExaResult where
  id : Nat
  sourceType : PromptSourceType
  deriving DecidableEq, Repr

/-- Result shape of the gather hook (`results` + `usedGlobal`). -/
structure GatherResult where
  results : List SearchResultForPrompt
  usedGlobal : Bool
  deriving DecidableEq, Repr

/-- Instrumented gather output: the gather result plus the trace of
underlying search invocations, in order. -/
structure GatherOutput extends GatherResult where
  calls : List SearchCall
  deriving DecidableEq, Repr

/-- The stateful general-result dedup filter of `gatherSearchResults`: a
general result is kept only when it has a cost whose source URL is unseen;
keeping it marks all its unseen cost URLs as seen. -/
def dedupGeneral : List ExaResult → List String → List ExaResult
  | [], _ => []
  | res :: rest, seen =>
    let validCosts := res.cost.filter (fun c => decide (c.source.url ∉ seen))
    if validCosts.isEmpty then dedupGeneral rest seen
    else res :: dedupGeneral rest (seen ++ validCosts.map (fun c => c.source.url))

/-- `gatherSearchResults` from the engine module, instrumented with the list
of searches performed. Unless `forceGlobalFallback`, both modes run against
the country query; when forced, or when the country pass yields fewer than 3
combined results, both modes additionally run against the global query.
Preferred results take dedup priority: every preferred cost URL is seen
before any general result is considered. -/
def gatherSearchResults (env : SearchEnv) (target : Target)
    (forceGlobalFallback : Bool) : GatherOutput :=
  let countryQuery := makeCountryQuery target
  let globalQuery := makeGlobalQuery target
  let preferredCountry := if forceGlobalFallback then [] else env.preferredSearch countryQuery
  let generalCountry := if forceGlobalFallback then [] else env.generalSearch countryQuery
  let countryCalls : List SearchCall :=
    if forceGlobalFallback then []
    else [⟨.preferredMode, countryQuery⟩, ⟨.generalMode, countryQuery⟩]
  let shouldUseGlobal :=
    forceGlobalFallback || decide (preferredCountry.length + generalCountry.length < 3)
  let preferred :=
    if shouldUseGlobal then preferredCountry ++ env.preferredSearch globalQuery
    else preferredCountry
  let general :=
    if shouldUseGlobal then generalCountry ++ env.generalSearch globalQuery
    else generalCountry
  let globalCalls : List SearchCall :=
    if shouldUseGlobal then [⟨.preferredMode, globalQuery⟩, ⟨.generalMode, globalQuery⟩] else []
  let seen := preferred.flatMap (fun r => r.cost.map (fun c => c.source.url))
  let annotatedPreferred : List SearchResultForPrompt :=
    preferred.enum.map (fun p => { toExaResult := p.2, id := p.1 + 1, sourceType := .preferred })
  let filteredGeneral := dedupGeneral general seen
  let annotatedGeneral : List SearchResultForPrompt :=
    filteredGeneral.enum.map
      (fun p => { toExaResult := p.2, id := annotatedPreferred.length + p.1 + 1,
                  sourceType := .general })
  { results := annotatedPreferred ++ annotatedGeneral
    usedGlobal := shouldUseGlobal
    calls := countryCalls ++ globalCalls }

/-- `normalizeCostfulResults` from the engine module: keep only strictly
positive cost entries, then only results that still have one. -/
def normalizeCostfulResults (results : List SearchResultForPrompt) : List SearchResultForPrompt :=
  (results.map
      (fun r => { r with cost := r.cost.filter (fun c => decide (0 < getCostNumericValue c)) }))
    |>.filter (fun r => decide (0 < r.cost.length))

/-- `searchWithFallback` from the engine module, over an arbitrary gather
hook (`gatherSearchResultsImpl` is swappable; the hook is the target-applied
impl). Instrumented with the trace of `forceGlobalFallback` flags passed to
the hook. -/
def searchWithFallback (gatherImpl : Bool → GatherResult) : GatherResult × List Bool :=
  let firstPass := gatherImpl false
  let firstWithCosts := normalizeCostfulResults firstPass.results
  if 0 < firstWithCosts.length || firstPass.usedGlobal then
    ({ results := firstWithCosts, usedGlobal := firstPass.usedGlobal }, [false])
  else
    let globalPass := gatherImpl true
    ({ results := normalizeCostfulResults globalPass.results, usedGlobal := true },
      [false, true])

/-! ### Engine module: LLM response shape and quality attachment -/

/-- One element of `LlmResponse.sources` (the `sources` array of the extended
cost-factor metadata schema). `ageMonths` is optional-and-nullable in the
schema; both absences collapse to `none`. -/
structure LlmSource where
  label : String
  url : String
  type : Option String
  ageMonths : Option ℚ
  observedAt : Option String
  rawPriceUsdPerKg : Option ℚ
  deriving DecidableEq, Repr

/-- The optional `qualityBreakdown` object (every field optional). -/
structure QualityBreakdown where
  recency : Option ℚ
  source : Option ℚ
  estimation : Option ℚ
  consistency : Option ℚ
  proximity : Option ℚ
  composite : Option ℚ
  deriving DecidableEq, Repr

/-- The optional `explanation` object of `aiCostMetadataSchema`. -/
structure LlmExplanation where
  reasoningAndMethodology : String
  assumptions : Option String
  deriving DecidableEq, Repr

/-- `LlmResponse` from the engine module: `aiCostMetadataSchema` extended
with `sources`, `date`, `derivationType`, `geoProximity` and
`qualityBreakdown`. The `derivationType` / `geoProximity` enums arrive as
validated strings and are re-parsed by the `to...` helpers below, matching
the code (which treats them as strings and normalizes). -/
structure LlmResponse where
  qualityBand : Option QualityBand
  qualityScore : Option ℚ
  scoreJustification : Option String
  explanation : Option LlmExplanation
  costInUSD : ℚ
  costInLocalCurrency : Option ℚ
  localCurrencyCode : Option String
  weightUnits : Option String
  isInferred : Option Bool
  sourceType : Option PromptSourceType
  sources : List LlmSource
  date : Option String
  derivationType : Option String
  geoProximity : Option String
  qualityBreakdown : Option QualityBreakdown
  deriving DecidableEq, Repr

/-- `toSourceTypeKey` from the engine module (a falsy — empty — string and an
unknown string both normalize to `undefined`). -/
def toSourceTypeKey : Option String → Option SourceTypeKey
  | none => none
  | some s =>
    if s = "commodity_index" then some .commodity_index
    else if s = "major_vendor" then some .major_vendor
    else if s = "trade_stats" then some .trade_stats
    else if s = "supplier_quote" then some .supplier_quote
    else if s = "industry_report" then some .industry_report
    else if s = "web_secondary" then some .web_secondary
    else if s = "anecdotal" then some .anecdotal
    else none

/-- `toDerivationType` from the engine module. -/
def toDerivationType : Option String → Option DerivationType
  | none => none
  | some s =>
    if s = "direct_local" then some .direct_local
    else if s = "direct_regional" then some .direct_regional
    else if s = "inferred_regional" then some .inferred_regional
    else if s = "inferred_material_analog" then some .inferred_material_analog
    else if s = "heuristic" then some .heuristic
    else none

/-- `toProximityKey` from the engine module. -/
def toProximityKey : Option String → Option ProximityKey
  | none => none
  | some s =>
    if s = "same_cluster" then some .same_cluster
    else if s = "same_country_same_market" then some .same_country_same_market
    else if s = "same_country_different_market" then some .same_country_different_market
    else if s = "neighboring_country" then some .neighboring_country
    else if s = "same_region" then some .same_region
    else if s = "different_region" then some .different_region
    else none

/-- The all-zero breakdown written by the zero-source branch of
`attachQualityScores` and by `makeEmptyResponse`. -/
def zeroBreakdown : QualityBreakdown :=
  ⟨some 0, some 0, some 0, some 0, some 0, some 0⟩

/-- `attachQualityScores` from the engine module. With zero sources, a
response that already carries both a quality score and a breakdown is
returned untouched, and otherwise a deterministic zero/low record is forced.
With sources, the deterministic score is computed from the source metadata
(unknown source types fall back to `web_secondary`); a non-`direct_local`
derivation downgrades a proximity claim outside
{`same_cluster`, `same_country_same_market`, `same_country_different_market`}
to `different_region` before scoring. -/
def attachQualityScores (env : DateEnv) (response : LlmResponse) : LlmResponse :=
  if response.sources.isEmpty then
    if response.qualityScore ≠ none ∧ response.qualityBreakdown ≠ none then response
    else
      { response with
        qualityScore := some 0
        qualityBand := some .low
        qualityBreakdown := some zeroBreakdown }
  else
    let sourcesForScoring : List SourceEntry :=
      response.sources.map fun s =>
        { type := some ((toSourceTypeKey s.type).getD .web_secondary)
          ageMonths := s.ageMonths
          observedAt := s.observedAt
          rawPriceUsdPerKg := s.rawPriceUsdPerKg }
    let derivation := toDerivationType response.derivationType
    let proximityParsed := toProximityKey response.geoProximity
    let proximityForScoring : Option ProximityKey :=
      match proximityParsed with
      | none => none
      | some p =>
        if derivation ≠ some .direct_local ∧
            p ∉ [ProximityKey.same_cluster, .same_country_same_market,
                 .same_country_different_market] then
          some .different_region
        else some p
    let quality := computeQualityScore env
      { sources := sourcesForScoring
        derivationType := derivation
        proximity := proximityForScoring }
    { response with
      qualityScore := some quality.composite
      qualityBand := some quality.band
      qualityBreakdown := some
        { recency := some quality.recency
          source := some quality.source
          estimation := some quality.estimation
          consistency := some quality.consistency
          proximity := some quality.proximity
          composite := some quality.composite } }

/-- `makeEmptyResponse` from the engine module. -/
def makeEmptyResponse : LlmResponse :=
  { qualityBand := some .low
    qualityScore := some 0
    scoreJustification := some "No cost data found for the ingredient."
    explanation := none
    costInUSD := 0
    costInLocalCurrency := some 0
    localCurrencyCode := some "USD"
    weightUnits := some "kg"
    isInferred := some false
    sourceType := some .general
    sources := []
    date := none
    derivationType := none
    geoProximity := none
    qualityBreakdown := some zeroBreakdown }

/-! ### Engine module: cache and `getCostEstimate` -/

/-- The in-memory LLM cache: assignment to `llmCache[key]` is modelled by
consing (lookup finds the newest binding for a key, as the object write
replaces the old value). -/
def Cache := List (String × LlmResponse)

/-- `pickResultsForModel` from the engine module. -/
def pickResultsForModel (results : List SearchResultForPrompt) : List SearchResultForPrompt :=
  let preferred := results.filter (fun r => r.sourceType = .preferred)
  if 0 < preferred.length then preferred else results

/-- Full environment of `getCostEstimate`: the search hooks, the date
environment for scoring, and the structured-generation hook
(`generateObjectImpl` composed with the prompt construction, modelled at the
`(target, results) ↦ response` level since the provider is external). -/
structure EngineEnv where
  search : SearchEnv
  dates : DateEnv
  generateObject : Target → List SearchResultForPrompt → LlmResponse

/-- Outcome of one `getCostEstimate` call: the response, the `fromCache`
flag, and the cache state after the call (the `persistLlmCache` file write
carries the same mapping). -/
structure EstimateOutcome where
  response : LlmResponse
  fromCache : Bool
  cache : Cache

/-- `searchWithFallback` under the production wiring, where the gather hook
is the real `gatherSearchResults` over the search environment. -/
def searchWithFallbackEngine (env : EngineEnv) (target : Target) : GatherResult × List Bool :=
  searchWithFallback (fun force => (gatherSearchResults env.search target force).toGatherResult)

/-- `getCostEstimate` from the engine module: serve a cache hit with freshly
recomputed quality scores; otherwise gather (two-tier), return the canonical
empty response when nothing priced survives, else generate, attach quality,
cache and return. -/
def getCostEstimate (env : EngineEnv) (cache : Cache) (target : Target) : EstimateOutcome :=
  let cacheKey := makeCacheKey target
  match List.lookup cacheKey cache with
  | some cached =>
    { response := attachQualityScores env.dates cached, fromCache := true, cache := cache }
  | none =>
    let costfulResults := (searchWithFallbackEngine env target).1.results
    if costfulResults.isEmpty then
      { response := makeEmptyResponse, fromCache := false
        cache := (cacheKey, makeEmptyResponse) :: cache }
    else
      let promptResults := pickResultsForModel costfulResults
      let response := env.generateObject target promptResults
      let responseWithQuality := attachQualityScores env.dates response
      { response := responseWithQuality, fromCache := false
        cache := (cacheKey, responseWithQuality) :: cache }

/-! ### cost-estimate-lite.ts -/

/-- The `"kg" | "ton"` weight unit of the lite estimate. -/
inductive WeightUnit
  | kg
  | ton
  deriving DecidableEq, Repr

/-- `CostEstimateLite` from cost-estimate-lite.ts (the `explanation` object
is flattened into its two optional fields). -/
structure CostEstimateLite where
  ingredient : String
  location : String
  costInUSD : ℚ
  weightUnits : WeightUnit
  qualityBand : QualityBand
  qualityScore : ℚ
  scoreJustification : String
  explanationReasoning : Option String
  explanationAssumptions : Option String
  deriving DecidableEq, Repr

/-- `makeCountryQuery` from cost-estimate-lite.ts. -/
def liteCountryQuery (ingredient location : String) : String :=
  ingredient ++ " wholesale price " ++ location ++ " bulk commodity"

/-- `makeGlobalQuery` from cost-estimate-lite.ts. -/
def liteGlobalQuery (ingredient : String) : String :=
  ingredient ++ " global wholesale commodity price"

/-- `normalizeResults` from cost-estimate-lite.ts: keep only strictly
positive cost entries, but keep every result (unlike the engine's
`normalizeCostfulResults`, results left with no cost entry stay). -/
def normalizeResults (results : List ExaResult) : List ExaResult :=
  results.map (fun r => { r with cost := r.cost.filter (fun c => decide (0 < getCostNumericValue c)) })

/-- Environment of the lite variant: the two search providers and the OpenAI
aggregation call (external). -/
structure LiteEnv where
  preferredSearch : String → List ExaResult
  generalSearch : String → List ExaResult
  aggregate : String → String → List ExaResult → CostEstimateLite

/-- `searchCosts` from cost-estimate-lite.ts: four fallback stages, each
tried only while the running result list is still empty. -/
def searchCosts (env : LiteEnv) (ingredient location : String) : List ExaResult :=
  let countryQuery := liteCountryQuery ingredient location
  let globalQuery := liteGlobalQuery ingredient
  let results := normalizeResults (env.preferredSearch countryQuery)
  let results := if results.isEmpty then normalizeResults (env.generalSearch countryQuery) else results
  let results := if results.isEmpty then normalizeResults (env.preferredSearch globalQuery) else results
  let results := if results.isEmpty then normalizeResults (env.generalSearch globalQuery) else results
  results

/-- List-of-characters prefix test (used for the JS `includes` check). -/
def leadsWith : List Char → List Char → Bool
  | [], _ => true
  | _ :: _, [] => false
  | a :: as, b :: bs => a == b && leadsWith as bs

/-- List-of-characters substring test, modelling JS `String.includes`. -/
def containsSeq (pat : List Char) : List Char → Bool
  | [] => leadsWith pat []
  | c :: rest => leadsWith pat (c :: rest) || containsSeq pat rest

/-- A flattened candidate of `pickBestCost`. -/
structure BestCost where
  amount : ℚ
  unit : WeightUnit
  deriving DecidableEq, Repr

/-- The `flattened` list built by `pickBestCost`: every cost entry mapped to
its numeric value and a unit (`"ton"` when the lowercased unit mentions
ton). -/
def flattenCosts (results : List ExaResult) : List BestCost :=
  results.flatMap fun r =>
    r.cost.map fun c =>
      { amount := getCostNumericValue c
        unit := if containsSeq "ton".data c.weightUnits.toLower.data then .ton else .kg }

/-- `pickBestCost` from cost-estimate-lite.ts: flatten every cost entry,
then take the first element of the stable sort by amount (JS
`Array.prototype.sort` with comparator `a.amount - b.amount`, then
`sorted[0]`). -/
def pickBestCost (results : List ExaResult) : Option BestCost :=
  let flattened := flattenCosts results
  if flattened.isEmpty then none
  else (flattened.mergeSort (fun a b => decide (a.amount ≤ b.amount))).head?

/-- `getCostEstimateLite` from cost-estimate-lite.ts, instrumented with a
flag recording whether the OpenAI aggregation fallback was invoked. -/
def getCostEstimateLite (env : LiteEnv) (ingredient location : String) :
    CostEstimateLite × Bool :=
  let results := searchCosts env ingredient location
  if results.isEmpty then
    ({ ingredient := ingredient
       location := location
       costInUSD := 0
       weightUnits := .kg
       qualityBand := .low
       qualityScore := 0
       scoreJustification := "No cost data found."
       explanationReasoning := some "No Exa results returned any usable cost data."
       explanationAssumptions := none }, false)
  else
    match pickBestCost results with
    | some best =>
      ({ ingredient := ingredient
         location := location
         costInUSD := best.amount
         weightUnits := best.unit
         qualityBand := .medium
         qualityScore := 50
         scoreJustification := "Derived from best available Exa cost entry."
         explanationReasoning := some "Selected lowest positive cost from Exa structured results."
         explanationAssumptions := none }, false)
    | none => (env.aggregate ingredient location results, true)

/-! ### Concrete inputs used by the claims -/

/-- First golden-example source: commodity index, observed 2 months ago,
0.49 USD/kg. -/
def goldenSource1 : SourceEntry := ⟨some .commodity_index, some 2, none, some (49/100)⟩

/-- Second golden-example source: commodity index, observed 1 month ago,
1.07 USD/kg. -/
def goldenSource2 : SourceEntry := ⟨some .commodity_index, some 1, none, some (107/100)⟩

/-- Golden-example scoring call: the two sources, `direct_local`,
`same_country_same_market`. -/
def goldenParams : QualityParams :=
  ⟨[goldenSource1, goldenSource2], some .direct_local, some .same_country_same_market⟩

/-! ### Theorems -/

/-- C1: Golden worked example. Two `commodity_index` sources with raw prices
0.49 and 1.07 USD/kg observed 2 and 1 months ago (per-source recency scores
80 and 100), derivation `direct_local`, proximity `same_country_same_market`:
the consistency sub-score is 30 (the relative spread of [0.49, 1.07]
exceeds 0.3), the composite is exactly
`0.30*90 + 0.25*80 + 0.20*100 + 0.15*30 + 0.10*80 = 79.5`, and the band is
`"medium"`. -/
theorem golden_example_quality_score :
    scoreRecency dateEnv0 (some 2) none = 80 ∧
    scoreRecency dateEnv0 (some 1) none = 100 ∧
    (computeQualityScore dateEnv0 goldenParams).recency = 90 ∧
    (computeQualityScore dateEnv0 goldenParams).source = 80 ∧
    (computeQualityScore dateEnv0 goldenParams).estimation = 100 ∧
    (computeQualityScore dateEnv0 goldenParams).consistency = 30 ∧
    (computeQualityScore dateEnv0 goldenParams).proximity = 80 ∧
    (computeQualityScore dateEnv0 goldenParams).composite =
      0.3 * 90 + 0.25 * 80 + 0.2 * 100 + 0.15 * 30 + 0.1 * 80 ∧
    (computeQualityScore dateEnv0 goldenParams).composite = 159 / 2 ∧
    (computeQualityScore dateEnv0 goldenParams).band = .medium := by
  refine ⟨?_, ?_, ?_, ?_, ?_, ?_, ?_, ?_, ?_, ?_⟩ <;>
    norm_num [computeQualityScore, scoreConsistency, scoreDerivation, scoreProximity,
      relSpreadLe, goldenParams, goldenSource1, goldenSource2, scoreRecency,
      recencyFromMonths, scoreSourceType, sourceTypeScore, proximityScoreTable,
      derivationScore, List.filterMap_cons, bandFromScore]

/-- C5 counterexample: `computeQualityScore` on an empty source list does not
return composite 0 with band `"low"`; it returns composite 53 with band
`"low_medium"` (see the amended theorem). -/
theorem computeQualityScore_empty_counterexample :
    ¬((computeQualityScore dateEnv0 ⟨[], none, none⟩).composite = 0 ∧
      (computeQualityScore dateEnv0 ⟨[], none, none⟩).band = .low) := by
  rintro ⟨hc, -⟩
  revert hc
  norm_num [computeQualityScore, scoreConsistency, scoreDerivation, scoreProximity,
    relSpreadLe]

/-- C5 (amended): `computeQualityScore` with an empty sources array (and no
derivation type or proximity) returns the neutral sub-scores 50/50/50/70/50,
composite `0.3*50 + 0.25*50 + 0.2*50 + 0.15*70 + 0.1*50 = 53`, and band
`"low_medium"` — not composite 0 and band `"low"`; the zero/low forcing for
an estimate with no sources lives in `attachQualityScores`, not here. -/
theorem computeQualityScore_empty_neutral (env : DateEnv) :
    (computeQualityScore env ⟨[], none, none⟩).recency = 50 ∧
    (computeQualityScore env ⟨[], none, none⟩).source = 50 ∧
    (computeQualityScore env ⟨[], none, none⟩).estimation = 50 ∧
    (computeQualityScore env ⟨[], none, none⟩).consistency = 70 ∧
    (computeQualityScore env ⟨[], none, none⟩).proximity = 50 ∧
    (computeQualityScore env ⟨[], none, none⟩).composite = 53 ∧
    (computeQualityScore env ⟨[], none, none⟩).band = .low_medium := by
  refine ⟨?_, ?_, ?_, ?_, ?_, ?_, ?_⟩ <;>
    norm_num [computeQualityScore, scoreConsistency, scoreDerivation, scoreProximity,
      relSpreadLe, bandFromScore]

/-- C4: `scoreRecency` trusts the older implied age. With an explicit
`ageMonths = 0` and an `observedAt` whose parsed date lies more than 12
(30-day) months before now — as a date 13 months in the past always does —
the score is 20, not 100; and in general, when both are present, the
effective age is the maximum of the explicit age and the age derived from
`observedAt`. -/
theorem scoreRecency_trusts_older_age :
    (∀ (env : DateEnv) (s : String) (t : Int),
        parseObservedAt env s = some t →
        360 < daysBetween t env.nowMs →
        scoreRecency env (some 0) (some s) = 20) ∧
    (∀ (env : DateEnv) (a : ℚ) (s : String) (t : Int),
        parseObservedAt env s = some t →
        scoreRecency env (some a) (some s) =
          recencyFromMonths (max a ((daysBetween t env.nowMs : ℚ) / 30))) := by
  have hmax : ∀ (env : DateEnv) (a : ℚ) (s : String) (t : Int),
      parseObservedAt env s = some t →
      scoreRecency env (some a) (some s) =
        recencyFromMonths (max a ((daysBetween t env.nowMs : ℚ) / 30)) := by
    intro env a s t hparse
    unfold scoreRecency
    simp only [hparse]
    rcases lt_or_le a ((daysBetween t env.nowMs : ℚ) / 30) with hlt | hle
    · rw [if_pos hlt, max_eq_right hlt.le]
    · rw [if_neg (not_lt.mpr hle), max_eq_left hle]
  refine ⟨?_, hmax⟩
  intro env s t hparse hdays
  rw [hmax env 0 s t hparse]
  have h12 : (12 : ℚ) < (daysBetween t env.nowMs : ℚ) / 30 := by
    rw [lt_div_iff₀ (by norm_num : (0 : ℚ) < 30)]
    have : (360 : ℚ) < (daysBetween t env.nowMs : ℚ) := by exact_mod_cast hdays
    linarith
  have h0 : max 0 ((daysBetween t env.nowMs : ℚ) / 30) = (daysBetween t env.nowMs : ℚ) / 30 :=
    max_eq_right (le_of_lt (lt_trans (by norm_num) h12))
  rw [h0]
  unfold recencyFromMonths
  rw [if_neg (by linarith), if_neg (by linarith), if_neg (by linarith), if_neg (by linarith)]

/-- Date environment for the C4 witness: every string parses to timestamp 0
and the clock reads 396 days later. -/
def dateEnvWitness : DateEnv := ⟨fun _ => some 0, 396 * msPerDay⟩

/-- C4 witness: with explicit age 0 and an observed date 396 days (more than
13 months) in the past, the recency score is 20. -/
theorem scoreRecency_trusts_older_age_witness :
    scoreRecency dateEnvWitness (some 0) (some "2024-09-01") = 20 :=
  scoreRecency_trusts_older_age.1 dateEnvWitness "2024-09-01" 0 rfl (by decide)

/-- C10: a range-shaped cost entry is valued solely by its minimum.
`getCostNumericValue` of an entry with no single `amount` and a present
`minAmount` returns `minAmount`, never consulting `maxAmount`; consequently
the positive-price filter drops a range with non-positive minimum even when
its maximum is positive, and `pickBestCost` reports a single-range result by
its `minAmount`, not its midpoint. -/
theorem getCostNumericValue_range_min :
    (∀ (c : CostEntry) (mn : ℚ), c.amount = none → c.minAmount = some mn →
        getCostNumericValue c = mn) ∧
    (∀ (c : CostEntry) (mn : ℚ) (o : Option ℚ), c.amount = none → c.minAmount = some mn →
        getCostNumericValue { c with maxAmount := o } = getCostNumericValue c) ∧
    (∀ (l : List CostEntry) (c : CostEntry) (mn : ℚ), c.amount = none →
        c.minAmount = some mn → mn ≤ 0 →
        c ∉ l.filter (fun c => decide (0 < getCostNumericValue c))) ∧
    (∀ (r : ExaResult) (c : CostEntry) (mn : ℚ), r.cost = [c] → c.amount = none →
        c.minAmount = some mn →
        (pickBestCost [r]).map BestCost.amount = some mn) := by
  have hval : ∀ (c : CostEntry) (mn : ℚ), c.amount = none → c.minAmount = some mn →
      getCostNumericValue c = mn := by
    intro c mn ha hmn
    unfold getCostNumericValue
    rw [ha, hmn]
  refine ⟨hval, ?_, ?_, ?_⟩
  · intro c mn o ha hmn
    rw [hval c mn ha hmn]
    exact hval _ mn ha hmn
  · intro l c mn ha hmn hle hmem
    have := (List.mem_filter.mp hmem).2
    rw [decide_eq_true_iff, hval c mn ha hmn] at this
    linarith
  · intro r c mn hr ha hmn
    unfold pickBestCost flattenCosts
    simp only [hr, List.flatMap_cons, List.flatMap_nil, List.map_cons, List.map_nil,
      List.append_nil]
    have hperm := List.mergeSort_perm
      [({ amount := getCostNumericValue c
          unit := if containsSeq "ton".data c.weightUnits.toLower.data then .ton else .kg } :
          BestCost)] (fun a b => decide (a.amount ≤ b.amount))
    rw [List.perm_singleton.mp hperm]
    simp [hval c mn ha hmn]

/-- Range entry 2–10 USD/kg used by the C10 witness. -/
def rangeEntry : CostEntry :=
  ⟨none, some 2, some 10, "USD", "kg", "market price", none, 1, "ok", ⟨"https://a", "t"⟩⟩

/-- Range entry (-3)–10 USD/kg used by the C10 witness. -/
def negRangeEntry : CostEntry :=
  ⟨none, some (-3), some 10, "USD", "kg", "market price", none, 1, "ok", ⟨"https://b", "t"⟩⟩

/-- C10 witness: the 2–10 range is valued at 2, and the (-3)–10 range is
dropped by the positive-price filter although its maximum is positive. -/
theorem getCostNumericValue_range_min_witness :
    getCostNumericValue rangeEntry = 2 ∧
    negRangeEntry ∉ [negRangeEntry].filter (fun c => decide (0 < getCostNumericValue c)) :=
  ⟨getCostNumericValue_range_min.1 rangeEntry 2 rfl rfl,
    getCostNumericValue_range_min.2.2.1 [negRangeEntry] negRangeEntry (-3) rfl rfl
      (by norm_num)⟩

/-- C6 counterexample: with zero sources but a model-reported quality score
and breakdown, `attachQualityScores` keeps the model's values instead of
forcing the zero/low record. -/
def responseSelfScored : LlmResponse :=
  { makeEmptyResponse with
    qualityScore := some 77
    qualityBand := some .high
    qualityBreakdown := some ⟨some 77, some 77, some 77, some 77, some 77, some 77⟩ }

/-- C6 counterexample: a zero-source response that already carries
`qualityScore = 77` and a breakdown is returned untouched — not forced to
the zero/low record as the claim states. -/
theorem attachQualityScores_zero_sources_counterexample :
    attachQualityScores dateEnv0 responseSelfScored = responseSelfScored ∧
    ¬((attachQualityScores dateEnv0 responseSelfScored).qualityScore = some 0 ∧
      (attachQualityScores dateEnv0 responseSelfScored).qualityBand = some (.low)) := by
  have heq : attachQualityScores dateEnv0 responseSelfScored = responseSelfScored := by
    unfold attachQualityScores
    rw [if_pos (by simp [responseSelfScored, makeEmptyResponse]),
      if_pos (by simp [responseSelfScored, makeEmptyResponse])]
  refine ⟨heq, ?_⟩
  rintro ⟨hq, -⟩
  rw [heq] at hq
  simp [responseSelfScored, makeEmptyResponse] at hq

/-- C6 (amended): with zero sources, `attachQualityScores` forces the
deterministic zero/low record only when the response lacks a reported
quality score or lacks a reported breakdown; when the model reported both, the
response is returned unchanged, score and all. -/
theorem attachQualityScores_zero_sources_forcing (env : DateEnv) (r : LlmResponse)
    (h : r.sources = []) :
    ((r.qualityScore = none ∨ r.qualityBreakdown = none) →
      attachQualityScores env r =
        { r with
          qualityScore := some 0
          qualityBand := some .low
          qualityBreakdown := some zeroBreakdown }) ∧
    (r.qualityScore ≠ none → r.qualityBreakdown ≠ none → attachQualityScores env r = r) := by
  constructor
  · intro hmiss
    unfold attachQualityScores
    rw [if_pos (by simp [h]), if_neg]
    rcases hmiss with hq | hb
    · exact fun hc => hc.1 hq
    · exact fun hc => hc.2 hb
  · intro hq hb
    unfold attachQualityScores
    rw [if_pos (by simp [h]), if_pos ⟨hq, hb⟩]

/-- Zero-source response with no reported score, used by the C6 witness. -/
def responseNoScore : LlmResponse :=
  { makeEmptyResponse with qualityScore := none, qualityBreakdown := none }

/-- C6 witness: the forcing branch on a concrete zero-source, unscored
response. -/
theorem attachQualityScores_zero_sources_forcing_witness :
    attachQualityScores dateEnv0 responseNoScore =
      { responseNoScore with
        qualityScore := some 0
        qualityBand := some .low
        qualityBreakdown := some zeroBreakdown } :=
  (attachQualityScores_zero_sources_forcing dateEnv0 responseNoScore rfl).1 (Or.inl rfl)

/-- Shape of the proximity actually scored by `attachQualityScores` on a
response with sources: the parsed proximity, downgraded to
`different_region` when the derivation is not `direct_local` and the claim
is outside the kept same-country set. -/
def effectiveProximity (r : LlmResponse) : Option ProximityKey :=
  match toProximityKey r.geoProximity with
  | none => none
  | some p =>
    if toDerivationType r.derivationType ≠ some .direct_local ∧
        p ∉ [ProximityKey.same_cluster, .same_country_same_market,
             .same_country_different_market] then
      some .different_region
    else some p

/-- Helper: on a response with at least one source, the proximity sub-score
reported by `attachQualityScores` is `scoreProximity` of the effective
(possibly downgraded) proximity. -/
theorem attachQualityScores_breakdown_proximity (env : DateEnv) (r : LlmResponse)
    (h : r.sources ≠ []) :
    (attachQualityScores env r).qualityBreakdown.map QualityBreakdown.proximity =
      some (some (scoreProximity (effectiveProximity r))) := by
  unfold attachQualityScores
  rw [if_neg (by simp [List.isEmpty_iff, h])]
  rfl

/-- Sample source used by the C7 inputs. -/
def llmSourceSample : LlmSource :=
  ⟨"Commodity index", "https://example.com/idx", some "commodity_index", some 1, none, some 1⟩

/-- C7 counterexample input: non-local derivation with a
`same_country_same_market` proximity claim. -/
def responseRegionalSameCountry : LlmResponse :=
  { makeEmptyResponse with
    sources := [llmSourceSample]
    derivationType := some "direct_regional"
    geoProximity := some "same_country_same_market" }

/-- C7 counterexample: under a `direct_regional` derivation, a
`same_country_same_market` proximity claim is NOT downgraded — its sub-score
stays 80, not the 15 the claim asserts. -/
theorem attachQualityScores_proximity_counterexample :
    (attachQualityScores dateEnv0 responseRegionalSameCountry).qualityBreakdown.map
        QualityBreakdown.proximity = some (some 80) ∧
    ¬((attachQualityScores dateEnv0 responseRegionalSameCountry).qualityBreakdown.map
        QualityBreakdown.proximity = some (some 15)) := by
  have h80 : (attachQualityScores dateEnv0 responseRegionalSameCountry).qualityBreakdown.map
      QualityBreakdown.proximity = some (some 80) := by
    rw [attachQualityScores_breakdown_proximity dateEnv0 responseRegionalSameCountry
      (by simp [responseRegionalSameCountry, makeEmptyResponse])]
    have : effectiveProximity responseRegionalSameCountry =
        some .same_country_same_market := by
      unfold effectiveProximity
      have hp : toProximityKey responseRegionalSameCountry.geoProximity =
          some .same_country_same_market := by
        simp [responseRegionalSameCountry, makeEmptyResponse, toProximityKey]
      rw [hp]
      dsimp only
      rw [if_neg (fun hc => hc.2 (by decide))]
    rw [this]
    rfl
  refine ⟨h80, ?_⟩
  intro h15
  rw [h80] at h15
  simp at h15

/-- C7 (amended): for a scoring call with at least one source and a
derivation other than `direct_local`, only the cross-country proximity
claims `neighboring_country` and `same_region` are downgraded to
`different_region` (sub-score 15; `different_region` itself also maps to 15).
The same-country claims `same_country_same_market` (80),
`same_country_different_market` (60) and `same_cluster` (100) are kept and
scored at their own values, contrary to the frozen claim. -/
theorem attachQualityScores_proximity_downgrade (env : DateEnv) (r : LlmResponse)
    (h : r.sources ≠ [])
    (hd : toDerivationType r.derivationType ≠ some .direct_local) :
    ((toProximityKey r.geoProximity = some .neighboring_country ∨
      toProximityKey r.geoProximity = some .same_region ∨
      toProximityKey r.geoProximity = some .different_region) →
      (attachQualityScores env r).qualityBreakdown.map QualityBreakdown.proximity =
        some (some 15)) ∧
    (toProximityKey r.geoProximity = some .same_cluster →
      (attachQualityScores env r).qualityBreakdown.map QualityBreakdown.proximity =
        some (some 100)) ∧
    (toProximityKey r.geoProximity = some .same_country_same_market →
      (attachQualityScores env r).qualityBreakdown.map QualityBreakdown.proximity =
        some (some 80)) ∧
    (toProximityKey r.geoProximity = some .same_country_different_market →
      (attachQualityScores env r).qualityBreakdown.map QualityBreakdown.proximity =
        some (some 60)) := by
  rw [attachQualityScores_breakdown_proximity env r h]
  refine ⟨?_, ?_, ?_, ?_⟩
  · intro hp
    have he : effectiveProximity r = some .different_region := by
      unfold effectiveProximity
      rcases hp with hp | hp | hp <;> (rw [hp]; dsimp only; rw [if_pos ⟨hd, by decide⟩])
    rw [he]
    rfl
  · intro hp
    have he : effectiveProximity r = some .same_cluster := by
      unfold effectiveProximity
      rw [hp]
      dsimp only
      rw [if_neg (fun hc => hc.2 (by decide))]
    rw [he]
    rfl
  · intro hp
    have he : effectiveProximity r = some .same_country_same_market := by
      unfold effectiveProximity
      rw [hp]
      dsimp only
      rw [if_neg (fun hc => hc.2 (by decide))]
    rw [he]
    rfl
  · intro hp
    have he : effectiveProximity r = some .same_country_different_market := by
      unfold effectiveProximity
      rw [hp]
      dsimp only
      rw [if_neg (fun hc => hc.2 (by decide))]
    rw [he]
    rfl

/-- C7 witness input: non-local derivation with a `neighboring_country`
proximity claim. -/
def responseRegionalNeighbor : LlmResponse :=
  { makeEmptyResponse with
    sources := [llmSourceSample]
    derivationType := some "direct_regional"
    geoProximity := some "neighboring_country" }

/-- C7 witness: the downgrade branch on a concrete non-local response with a
`neighboring_country` claim — the proximity sub-score becomes 15. -/
theorem attachQualityScores_proximity_downgrade_witness :
    (attachQualityScores dateEnv0 responseRegionalNeighbor).qualityBreakdown.map
      QualityBreakdown.proximity = some (some 15) :=
  (attachQualityScores_proximity_downgrade dateEnv0 responseRegionalNeighbor
      (by simp [responseRegionalNeighbor, makeEmptyResponse])
      (by simp [responseRegionalNeighbor, makeEmptyResponse, toDerivationType])).1
    (Or.inl (by simp [responseRegionalNeighbor, makeEmptyResponse, toProximityKey]))

/-- Helper: the location-scoped and global query strings can never coincide
(they end in distinct fixed suffixes), so counting global-query calls in a
trace is unambiguous. -/
theorem countryQuery_ne_globalQuery (t : Target) : makeCountryQuery t ≠ makeGlobalQuery t := by
  intro hEq
  have h1 : (makeCountryQuery t).data.getLast? = some 'y' := by
    unfold makeCountryQuery
    rw [String.data_append, List.getLast?_append,
      show (" bulk commodity".data.getLast?) = some 'y' from by decide]
    rfl
  have h2 : (makeGlobalQuery t).data.getLast? = some 'e' := by
    unfold makeGlobalQuery
    rw [String.data_append, List.getLast?_append,
      show (" global wholesale commodity price".data.getLast?) = some 'e' from by decide]
    rfl
  rw [hEq, h2] at h1
  exact absurd h1 (by decide)

/-- C2: escalation threshold. With `forceGlobalFallback = false`,
`gatherSearchResults` issues each of the two global-query searches
(preferred-domain and general) exactly once when the location-scoped pass
returned fewer than 3 combined results, and never issues them when it
returned 3 or more. -/
theorem gatherSearchResults_escalation_threshold (env : SearchEnv) (target : Target) :
    ((gatherSearchResults env target false).calls.count
        ⟨.preferredMode, makeGlobalQuery target⟩ =
      if (env.preferredSearch (makeCountryQuery target)).length +
          (env.generalSearch (makeCountryQuery target)).length < 3 then 1 else 0) ∧
    ((gatherSearchResults env target false).calls.count
        ⟨.generalMode, makeGlobalQuery target⟩ =
      if (env.preferredSearch (makeCountryQuery target)).length +
          (env.generalSearch (makeCountryQuery target)).length < 3 then 1 else 0) := by
  have hne := countryQuery_ne_globalQuery target
  by_cases hn : (env.preferredSearch (makeCountryQuery target)).length +
      (env.generalSearch (makeCountryQuery target)).length < 3 <;>
    simp [gatherSearchResults, hn, List.count_append, List.count_cons, List.count_nil,
      SearchCall.mk.injEq, hne]

/-- Helper: the engine's positive-cost normalization returns the empty list
exactly when no gathered result contains a cost entry with positive numeric
value. -/
theorem normalizeCostfulResults_eq_nil_iff (rs : List SearchResultForPrompt) :
    normalizeCostfulResults rs = [] ↔
      ∀ r ∈ rs, ∀ c ∈ r.cost, getCostNumericValue c ≤ 0 := by
  unfold normalizeCostfulResults
  rw [List.filter_eq_nil_iff]
  constructor
  · intro h r hr c hc
    have hm := h _ (List.mem_map_of_mem _ hr)
    rw [decide_eq_true_iff, not_lt, Nat.le_zero, List.length_eq_zero] at hm
    have := List.filter_eq_nil_iff.mp hm c hc
    rw [decide_eq_true_iff, not_lt] at this
    exact this
  · intro h fr hfr
    obtain ⟨r, hr, rfl⟩ := List.mem_map.mp hfr
    have hnil : r.cost.filter (fun c => decide (0 < getCostNumericValue c)) = [] :=
      List.filter_eq_nil_iff.mpr fun c hc => by
        rw [decide_eq_true_iff, not_lt]
        exact h r hr c hc
    show ¬(decide (0 < (List.filter _ r.cost).length) = true)
    rw [hnil]
    decide

/-- C3: the two-tier policy issues at most two gather passes. The second
pass (with `forceGlobalFallback = true`) happens exactly when the first pass
reported `usedGlobal = false` and yielded no result containing a
positive-value cost entry; whenever the first pass reported
`usedGlobal = true` — priced observations or not — only the single first
pass is issued, and a third pass never occurs. -/
theorem searchWithFallback_two_pass (gatherImpl : Bool → GatherResult) :
    (searchWithFallback gatherImpl).2.length ≤ 2 ∧
    ((searchWithFallback gatherImpl).2 = [false, true] ↔
      ((gatherImpl false).usedGlobal = false ∧
        ∀ r ∈ (gatherImpl false).results, ∀ c ∈ r.cost, getCostNumericValue c ≤ 0)) ∧
    ((gatherImpl false).usedGlobal = true → (searchWithFallback gatherImpl).2 = [false]) := by
  by_cases h1 : normalizeCostfulResults (gatherImpl false).results = []
  · by_cases h2 : (gatherImpl false).usedGlobal
    · have htr : (searchWithFallback gatherImpl).2 = [false] := by
        unfold searchWithFallback
        simp [h2]
      refine ⟨by rw [htr]; decide, ?_, fun _ => htr⟩
      rw [htr]
      constructor
      · intro hcontra
        exact absurd hcontra (by decide)
      · rintro ⟨hu, -⟩
        rw [h2] at hu
        exact absurd hu (by decide)
    · have htr : (searchWithFallback gatherImpl).2 = [false, true] := by
        unfold searchWithFallback
        simp [h1, h2]
      refine ⟨by rw [htr]; decide, ?_, fun hu => absurd hu h2⟩
      rw [htr]
      simp only [true_iff]
      exact ⟨Bool.not_eq_true _ ▸ Bool.of_not_eq_true h2,
        (normalizeCostfulResults_eq_nil_iff _).mp h1⟩
  · have hlen : 0 < (normalizeCostfulResults (gatherImpl false).results).length :=
      List.length_pos.mpr h1
    have htr : (searchWithFallback gatherImpl).2 = [false] := by
      unfold searchWithFallback
      simp [hlen]
    refine ⟨by rw [htr]; decide, ?_, fun _ => htr⟩
    rw [htr]
    constructor
    · intro hcontra
      exact absurd hcontra (by decide)
    · rintro ⟨-, hzero⟩
      exact absurd ((normalizeCostfulResults_eq_nil_iff _).mpr hzero) h1

/-- Gather hook used by the C3 witness: reports `usedGlobal = true` with no
results. -/
def gatherStubGlobalUsed : Bool → GatherResult := fun _ => ⟨[], true⟩

/-- C3 witness: when the first pass already used the global query, the
policy stops after one pass even though it found nothing priced. -/
theorem searchWithFallback_two_pass_witness :
    (searchWithFallback gatherStubGlobalUsed).2 = [false] :=
  (searchWithFallback_two_pass gatherStubGlobalUsed).2.2 rfl

/-- Helper: `attachQualityScores` only rewrites the quality fields — the
priced payload (`costInUSD`, `weightUnits`, `sources`) passes through
untouched on every branch. -/
theorem attachQualityScores_preserves (env : DateEnv) (r : LlmResponse) :
    (attachQualityScores env r).costInUSD = r.costInUSD ∧
    (attachQualityScores env r).weightUnits = r.weightUnits ∧
    (attachQualityScores env r).sources = r.sources := by
  unfold attachQualityScores
  split
  · split
    · exact ⟨rfl, rfl, rfl⟩
    · exact ⟨rfl, rfl, rfl⟩
  · exact ⟨rfl, rfl, rfl⟩

/-- Helper: looking a key up right after consing its binding yields that
binding. -/
theorem lookup_cons_self {β : Type} (a : String) (b : β) (l : List (String × β)) :
    List.lookup a ((a, b) :: l) = some b := by
  simp [List.lookup]

/-- Helper: a cache hit returns the cached record with freshly recomputed
quality scores, flags `fromCache`, and leaves the cache unchanged. -/
theorem getCostEstimate_hit (env : EngineEnv) (cache : Cache) (target : Target)
    (stored : LlmResponse)
    (h : List.lookup (makeCacheKey target) cache = some stored) :
    getCostEstimate env cache target =
      ⟨attachQualityScores env.dates stored, true, cache⟩ := by
  unfold getCostEstimate
  dsimp only
  rw [h]

/-- Helper: a cache miss with no priced observation caches and returns the
canonical empty response. -/
theorem getCostEstimate_miss_empty (env : EngineEnv) (cache : Cache) (target : Target)
    (h : List.lookup (makeCacheKey target) cache = none)
    (he : ((searchWithFallbackEngine env target).1.results).isEmpty = true) :
    getCostEstimate env cache target =
      ⟨makeEmptyResponse, false, (makeCacheKey target, makeEmptyResponse) :: cache⟩ := by
  unfold getCostEstimate
  dsimp only
  rw [h]
  simp [he]

/-- Helper: a cache miss with priced observations runs the generation hook,
attaches quality, caches the scored response and returns it. -/
theorem getCostEstimate_miss_llm (env : EngineEnv) (cache : Cache) (target : Target)
    (h : List.lookup (makeCacheKey target) cache = none)
    (he : ((searchWithFallbackEngine env target).1.results).isEmpty = false) :
    getCostEstimate env cache target =
      ⟨attachQualityScores env.dates
          (env.generateObject target
            (pickResultsForModel (searchWithFallbackEngine env target).1.results)),
        false,
        (makeCacheKey target,
          attachQualityScores env.dates
            (env.generateObject target
              (pickResultsForModel (searchWithFallbackEngine env target).1.results))) ::
          cache⟩ := by
  unfold getCostEstimate
  dsimp only
  rw [h]
  simp [he]

/-- C8: cache idempotence. Once `getCostEstimate` completes for a target,
a second call with the identical target — under arbitrary, possibly
different, search/generation providers — is a cache hit: it reports
`fromCache = true`, returns the same `costInUSD`, `weightUnits` and
`sources` as the first call's response, and its quality scores are
recomputed by `attachQualityScores` from the cached record rather than
obtained from a fresh search. -/
theorem getCostEstimate_cache_idempotent (env1 env2 : EngineEnv) (cache0 : Cache)
    (target : Target) :
    (getCostEstimate env2 (getCostEstimate env1 cache0 target).cache target).fromCache = true ∧
    (getCostEstimate env2 (getCostEstimate env1 cache0 target).cache target).response.costInUSD =
      (getCostEstimate env1 cache0 target).response.costInUSD ∧
    (getCostEstimate env2 (getCostEstimate env1 cache0 target).cache target).response.weightUnits =
      (getCostEstimate env1 cache0 target).response.weightUnits ∧
    (getCostEstimate env2 (getCostEstimate env1 cache0 target).cache target).response.sources =
      (getCostEstimate env1 cache0 target).response.sources ∧
    ∃ stored,
      List.lookup (makeCacheKey target) (getCostEstimate env1 cache0 target).cache =
        some stored ∧
      (getCostEstimate env2 (getCostEstimate env1 cache0 target).cache target).response =
        attachQualityScores env2.dates stored := by
  cases hl : List.lookup (makeCacheKey target) cache0 with
  | some cached =>
    have h1 := getCostEstimate_hit env1 cache0 target cached hl
    simp only [h1]
    have h2 := getCostEstimate_hit env2 cache0 target cached hl
    simp only [h2]
    obtain ⟨hc1, hw1, hs1⟩ := attachQualityScores_preserves env1.dates cached
    obtain ⟨hc2, hw2, hs2⟩ := attachQualityScores_preserves env2.dates cached
    exact ⟨trivial, by rw [hc1, hc2], by rw [hw1, hw2], by rw [hs1, hs2], cached, hl, rfl⟩
  | none =>
    cases he : ((searchWithFallbackEngine env1 target).1.results).isEmpty with
    | true =>
      have h1 := getCostEstimate_miss_empty env1 cache0 target hl he
      simp only [h1]
      have hfound := lookup_cons_self (makeCacheKey target) makeEmptyResponse cache0
      have h2 := getCostEstimate_hit env2 _ target makeEmptyResponse hfound
      simp only [h2]
      obtain ⟨hc2, hw2, hs2⟩ := attachQualityScores_preserves env2.dates makeEmptyResponse
      exact ⟨trivial, hc2, hw2, hs2, makeEmptyResponse, hfound, rfl⟩
    | false =>
      have h1 := getCostEstimate_miss_llm env1 cache0 target hl he
      simp only [h1]
      have hfound := lookup_cons_self (makeCacheKey target)
        (attachQualityScores env1.dates
          (env1.generateObject target
            (pickResultsForModel (searchWithFallbackEngine env1 target).1.results))) cache0
      have h2 := getCostEstimate_hit env2 _ target _ hfound
      simp only [h2]
      obtain ⟨hc2, hw2, hs2⟩ := attachQualityScores_preserves env2.dates
        (attachQualityScores env1.dates
          (env1.generateObject target
            (pickResultsForModel (searchWithFallbackEngine env1 target).1.results)))
      exact ⟨trivial, hc2, hw2, hs2, _, hfound, rfl⟩

/-- Helper: every cost entry surviving the lite normalization has a strictly
positive numeric value. -/
theorem normalizeResults_positive (rs : List ExaResult) :
    ∀ r ∈ normalizeResults rs, ∀ c ∈ r.cost, 0 < getCostNumericValue c := by
  intro r hr c hc
  obtain ⟨r0, hr0, rfl⟩ := List.mem_map.mp hr
  exact of_decide_eq_true (List.mem_filter.mp hc).2

/-- Helper: every stage of `searchCosts` is a `normalizeResults` image, so
every cost entry it returns is strictly positive. -/
theorem searchCosts_positive (env : LiteEnv) (ingredient location : String) :
    ∀ r ∈ searchCosts env ingredient location, ∀ c ∈ r.cost, 0 < getCostNumericValue c := by
  unfold searchCosts
  dsimp only
  repeat' split
  all_goals exact normalizeResults_positive _

/-- Helper: the head of the lite variant's merge sort belongs to the
flattened list and its amount is a lower bound for every flattened amount. -/
theorem head_mergeSort_min (l : List BestCost) (x : BestCost)
    (h : (l.mergeSort (fun a b => decide (a.amount ≤ b.amount))).head? = some x) :
    x ∈ l ∧ ∀ y ∈ l, x.amount ≤ y.amount := by
  have hperm := List.mergeSort_perm l (fun a b => decide (a.amount ≤ b.amount))
  have hsorted := @List.sorted_mergeSort BestCost
    (fun a b : BestCost => decide (a.amount ≤ b.amount))
    (fun a b c h1 h2 =>
      decide_eq_true (le_trans (of_decide_eq_true h1) (of_decide_eq_true h2)))
    (fun a b => by
      rcases le_total a.amount b.amount with hab | hab
      · simp [decide_eq_true hab]
      · simp [decide_eq_true hab])
    l
  cases hms : l.mergeSort (fun a b => decide (a.amount ≤ b.amount)) with
  | nil =>
    rw [hms] at h
    exact absurd h (by simp)
  | cons hd tl =>
    rw [hms] at h hperm hsorted
    have hx : hd = x := by simpa using h
    subst hx
    constructor
    · exact hperm.subset (List.mem_cons_self _ _)
    · intro y hy
      have hy' : y ∈ hd :: tl := hperm.symm.subset hy
      rcases List.mem_cons.mp hy' with rfl | hy''
      · exact le_refl _
      · exact of_decide_eq_true ((List.pairwise_cons.mp hsorted).1 y hy'')

/-- C9 (amended): whenever the search step returns at least one result that
still carries a (positive-price) cost entry, `getCostEstimateLite` skips the
text-generation call and deterministically returns the single lowest
positive price across all gathered cost entries, with quality fixed at band
`"medium"` (score 50). When the search step returns results but none of them
carries a priced entry, the generation call IS invoked (see the
counterexample), so the claim's "never invokes the generation step" only
holds under this hypothesis. -/
theorem getCostEstimateLite_heuristic_min (env : LiteEnv) (ingredient location : String)
    (h : ∃ r ∈ searchCosts env ingredient location, r.cost ≠ []) :
    (getCostEstimateLite env ingredient location).2 = false ∧
    (getCostEstimateLite env ingredient location).1.qualityBand = .medium ∧
    (getCostEstimateLite env ingredient location).1.qualityScore = 50 ∧
    0 < (getCostEstimateLite env ingredient location).1.costInUSD ∧
    (∃ r ∈ searchCosts env ingredient location, ∃ c ∈ r.cost,
      (getCostEstimateLite env ingredient location).1.costInUSD = getCostNumericValue c) ∧
    (∀ r ∈ searchCosts env ingredient location, ∀ c ∈ r.cost,
      (getCostEstimateLite env ingredient location).1.costInUSD ≤ getCostNumericValue c) := by
  obtain ⟨r0, hr0, hc0⟩ := h
  obtain ⟨c0, hc0'⟩ := List.exists_mem_of_ne_nil _ hc0
  -- the flattened candidate list is nonempty
  have hflmem : (⟨getCostNumericValue c0,
      if containsSeq "ton".data c0.weightUnits.toLower.data then .ton else .kg⟩ : BestCost) ∈
      flattenCosts (searchCosts env ingredient location) := by
    unfold flattenCosts
    exact List.mem_flatMap.mpr ⟨r0, hr0, List.mem_map_of_mem _ hc0'⟩
  have hflne : flattenCosts (searchCosts env ingredient location) ≠ [] :=
    List.ne_nil_of_mem hflmem
  have hflempty : (flattenCosts (searchCosts env ingredient location)).isEmpty = false := by
    rw [List.isEmpty_eq_false]
    exact hflne
  -- the sorted list is nonempty, so pickBestCost returns its head
  have hperm := List.mergeSort_perm (flattenCosts (searchCosts env ingredient location))
    (fun a b => decide (a.amount ≤ b.amount))
  have hmsne : (flattenCosts (searchCosts env ingredient location)).mergeSort
      (fun a b => decide (a.amount ≤ b.amount)) ≠ [] := by
    intro hnil
    exact hflne (List.Perm.nil_eq (hnil ▸ hperm)).symm
  obtain ⟨best, hbest⟩ := Option.ne_none_iff_exists'.mp
    (mt List.head?_eq_none_iff.mp hmsne)
  have hpick : pickBestCost (searchCosts env ingredient location) = some best := by
    unfold pickBestCost
    dsimp only
    rw [hflempty]
    simpa using hbest
  -- the result list itself is nonempty
  have hresne : (searchCosts env ingredient location).isEmpty = false := by
    rw [List.isEmpty_eq_false]
    exact List.ne_nil_of_mem hr0
  have hout : getCostEstimateLite env ingredient location =
      ({ ingredient := ingredient
         location := location
         costInUSD := best.amount
         weightUnits := best.unit
         qualityBand := .medium
         qualityScore := 50
         scoreJustification := "Derived from best available Exa cost entry."
         explanationReasoning :=
           some "Selected lowest positive cost from Exa structured results."
         explanationAssumptions := none }, false) := by
    unfold getCostEstimateLite
    dsimp only
    rw [hresne, hpick]
    rfl
  obtain ⟨hbmem, hbmin⟩ := head_mergeSort_min _ best hbest
  have hchar : ∀ x ∈ flattenCosts (searchCosts env ingredient location),
      ∃ r ∈ searchCosts env ingredient location, ∃ c ∈ r.cost,
        x.amount = getCostNumericValue c := by
    intro x hx
    unfold flattenCosts at hx
    obtain ⟨r, hr, hx'⟩ := List.mem_flatMap.mp hx
    obtain ⟨c, hc, rfl⟩ := List.mem_map.mp hx'
    exact ⟨r, hr, c, hc, rfl⟩
  obtain ⟨rb, hrb, cb, hcb, hbeq⟩ := hchar best hbmem
  rw [hout]
  refine ⟨rfl, rfl, rfl, ?_, ⟨rb, hrb, cb, hcb, hbeq⟩, ?_⟩
  · rw [hbeq]
    exact searchCosts_positive env ingredient location rb hrb cb hcb
  · intro r hr c hc
    show best.amount ≤ getCostNumericValue c
    refine hbmin ⟨getCostNumericValue c,
      if containsSeq "ton".data c.weightUnits.toLower.data then .ton else .kg⟩ ?_
    unfold flattenCosts
    exact List.mem_flatMap.mpr ⟨r, hr, List.mem_map_of_mem _ hc⟩

/-- Well-priced entry used by the C9 witness. -/
def entryGood : CostEntry :=
  ⟨some 5, none, none, "USD", "kg", "market price", none, 1, "ok", ⟨"https://d", "t"⟩⟩

/-- Search result used by the C9 witness. -/
def resultGood : ExaResult := ⟨"wheat", "AU", [entryGood], "txt"⟩

/-- Lite environment for the C9 witness: the preferred search finds one
priced result. -/
def liteEnvGood : LiteEnv :=
  ⟨fun _ => [resultGood], fun _ => [],
    fun i l _ => ⟨i, l, 0, .kg, .low, 0, "insufficient data", none, none⟩⟩

/-- C9 witness: with one positively priced result, the lite variant answers
heuristically (no generation call) with band `"medium"`. -/
theorem getCostEstimateLite_heuristic_min_witness :
    (getCostEstimateLite liteEnvGood "wheat" "AU").2 = false ∧
    (getCostEstimateLite liteEnvGood "wheat" "AU").1.qualityBand = .medium :=
  ⟨(getCostEstimateLite_heuristic_min liteEnvGood "wheat" "AU"
      ⟨resultGood, by decide, by decide⟩).1,
    (getCostEstimateLite_heuristic_min liteEnvGood "wheat" "AU"
      ⟨resultGood, by decide, by decide⟩).2.1⟩

/-- Cost entry with positive amount but provider confidence 0, used by the
C9 counterexample (JS treats a 0 score as falsy in the every-check, then the
`>= 0.6` filter drops the entry). -/
def entryScoreZero : CostEntry :=
  ⟨some 5, none, none, "USD", "kg", "market price", none, 0, "unknown", ⟨"https://c", "t"⟩⟩

/-- Raw provider item used by the C9 counterexample. -/
def rawItemScoreZero : RawSearchItem := ⟨some ⟨"wheat", "AU", [entryScoreZero]⟩, "txt"⟩

/-- Lite environment for the C9 counterexample: the preferred search output
is exactly what `domainPreferredSearch` produces from `rawItemScoreZero` — a
result whose one cost entry is dropped by the confidence filter, leaving a
result with no cost entries. -/
def liteEnvBad : LiteEnv :=
  ⟨fun _ => filterStructuredResults [rawItemScoreZero], fun _ => [],
    fun i l _ => ⟨i, l, 0, .kg, .low, 0, "insufficient data", none, none⟩⟩

/-- C9 counterexample: the search step returns one (unpriced) result, yet
`getCostEstimateLite` DOES invoke the generation step — refuting the claim
that any nonempty search result set makes it skip the generation call. -/
theorem getCostEstimateLite_llm_fallback_counterexample :
    searchCosts liteEnvBad "wheat" "AU" ≠ [] ∧
    (getCostEstimateLite liteEnvBad "wheat" "AU").2 = true := by
  constructor
  · decide
  · decide

end FundFinder
